import Mathlib

/-!
The resolvers of `src/index.js` (graphql-courses) over the in-memory store.

The program keeps three module-level arrays (`courses`, `students`, `grades`)
and exposes query, mutation and relational resolvers over them.  The arrays
become the three fields of `Store`; a resolver that mutates an array returns
its result together with the store after the call.

JavaScript values that reach an `id` or foreign-key position are modelled by
`JSVal`.  Numbers are integers (`Int`): the ids the program computes
(`length + 1`) and every `GraphQLInt` argument are integers.  Objects and
arrays in an id position are outside the model.
-/

namespace GraphqlCourses

/-- A JavaScript value as it can stand in an `id`, `courseId` or `studentId`
field of a record loaded from JSON or built by a mutation, or in an optional
`GraphQLInt` argument (`undefined` when the argument is omitted). -/
inductive JSVal where
  | undefined : JSVal
  | null : JSVal
  | bool (b : Bool) : JSVal
  | num (n : Int) : JSVal
  | str (s : String) : JSVal
  deriving DecidableEq, Repr

/-- The operator `===` on the modelled values: same type and same value. -/
def strictEq (a b : JSVal) : Bool :=
  decide (a = b)

/-- The operator `==` with a Number on the left, as in `args.id == course.id`
where `args.id` is a non-null `GraphQLInt`.  Number against Number compares
the values; a String on the right is first converted to a Number, a Boolean
to `1` or `0`; `null` and `undefined` equal no Number.  `toNumber` is the
runtime conversion of a String to a Number, giving `some n` when the result
is the integer `n` and `none` otherwise (NaN, infinite or fractional). -/
def looseEqNum (toNumber : String → Option Int) (n : Int) : JSVal → Bool
  | JSVal.num m => decide (n = m)
  | JSVal.str s => decide (toNumber s = some n)
  | JSVal.bool b => decide (n = if b then 1 else 0)
  | JSVal.null => false
  | JSVal.undefined => false

/-- Value of a decimal digit character. -/
def digitVal (c : Char) : Option Nat :=
  if c.isDigit then some (c.toNat - 48) else none

/-- Reads a non-empty run of decimal digits, most significant first. -/
def readDigits : List Char → Option Nat → Option Nat
  | [], acc => acc
  | c :: cs, acc =>
    match digitVal c with
    | none => none
    | some d => readDigits cs (some (acc.getD 0 * 10 + d))

/-- A sample value for the `toNumber` parameter of the deletes, used where a
closed example needs one.  It is the decimal-integer fragment of the runtime
String-to-Number conversion and not the whole of it: surrounding white space
is dropped, the empty string is `0`, and an optional sign followed by decimal
digits is the integer written.  Every other string gives `none` here, also
those the runtime reads as an integer (`"5.0"`, `"5e0"`, `"0x5"`), and large
values are exact where the runtime rounds.  The general theorems do not use
it: they hold for every `toNumber`. -/
def decimalToNumber (s : String) : Option Int :=
  let cs := (s.toList.dropWhile Char.isWhitespace).reverse.dropWhile Char.isWhitespace |>.reverse
  match cs with
  | [] => some 0
  | '-' :: ds => (readDigits ds none).map (fun k => - (k : Int))
  | '+' :: ds => (readDigits ds none).map (fun k => (k : Int))
  | ds => (readDigits ds none).map (fun k => (k : Int))

/-- A course record: `{ id, name, description }`. -/
structure Course where
  id : JSVal
  name : String
  description : String
  deriving DecidableEq, Repr

/-- A student record: `{ id, name, lastName, courseId }`. -/
structure Student where
  id : JSVal
  name : String
  lastName : String
  courseId : JSVal
  deriving DecidableEq, Repr

/-- A grade record: `{ id, courseId, studentId, grade }`.  The score is a
finite floating-point number that the program only stores and hands back; it
is carried as the rational it denotes. -/
structure Grade where
  id : JSVal
  courseId : JSVal
  studentId : JSVal
  grade : Rat
  deriving DecidableEq, Repr

/-- The three module-level arrays of `index.js`. -/
structure Store where
  courses : List Course
  students : List Student
  grades : List Grade
  deriving DecidableEq, Repr

/-- The library call `lodash.remove(array, predicate)`: every element for which
the predicate holds is taken out of the array; the call returns the removed
elements, in order (first component), and the array keeps the others, in
order (second component). -/
def lodash_remove {α : Type} (predicate : α → Bool) : List α → List α × List α
  | [] => ([], [])
  | x :: xs =>
    let rest := lodash_remove predicate xs
    if predicate x then (x :: rest.1, rest.2) else (rest.1, x :: rest.2)

/-! ## Relational resolvers -/

namespace StudentType

/-- Field `course` of `StudentType`:
`courses.find(course => course.id === student.courseId)`. -/
def course (student : Student) (s : Store) : Option Course :=
  s.courses.find? (fun course => strictEq course.id student.courseId)

end StudentType

namespace GradeType

/-- Field `course` of `GradeType`:
`courses.find(course => course.id === grade.courseId)`. -/
def course (grade : Grade) (s : Store) : Option Course :=
  s.courses.find? (fun course => strictEq course.id grade.courseId)

/-- Field `student` of `GradeType`:
`students.find(student => student.id === grade.studentId)`. -/
def student (grade : Grade) (s : Store) : Option Student :=
  s.students.find? (fun student => strictEq student.id grade.studentId)

end GradeType

/-! ## Query resolvers -/

namespace RootQueryType

/-- Query `courses`: `() => courses`. -/
def courses (s : Store) : List Course := s.courses

/-- Query `students`: `() => students`. -/
def students (s : Store) : List Student := s.students

/-- Query `grades`: `() => grades`. -/
def grades (s : Store) : List Grade := s.grades

/-- Query `course`: `courses.find(course => course.id === args.id)`. -/
def course (id : JSVal) (s : Store) : Option Course :=
  s.courses.find? (fun course => strictEq course.id id)

/-- Query `student`: `students.find(student => student.id === args.id)`. -/
def student (id : JSVal) (s : Store) : Option Student :=
  s.students.find? (fun student => strictEq student.id id)

/-- Query `grade`: `grades.find(grade => grade.id === args.id)`. -/
def grade (id : JSVal) (s : Store) : Option Grade :=
  s.grades.find? (fun grade => strictEq grade.id id)

end RootQueryType

/-! ## Mutation resolvers -/

namespace RootMutationType

/-- Mutation `addCourse`: builds `{ id: courses.length + 1, name, description }`,
pushes it and returns it. -/
def addCourse (name description : String) (s : Store) : Course × Store :=
  let course : Course :=
    { id := JSVal.num (s.courses.length + 1), name := name, description := description }
  (course, { s with courses := s.courses ++ [course] })

/-- Mutation `addStudent`: builds
`{ id: students.length + 1, name, lastName, courseId }`, pushes it and returns it. -/
def addStudent (name lastName : String) (courseId : Int) (s : Store) : Student × Store :=
  let student : Student :=
    { id := JSVal.num (s.students.length + 1), name := name, lastName := lastName,
      courseId := JSVal.num courseId }
  (student, { s with students := s.students ++ [student] })

/-- Mutation `addGrade`: builds
`{ id: grades.length + 1, courseId, studentId, grade }`, pushes it and returns it. -/
def addGrade (courseId studentId : Int) (grade : Rat) (s : Store) : Grade × Store :=
  let g : Grade :=
    { id := JSVal.num (s.grades.length + 1), courseId := JSVal.num courseId,
      studentId := JSVal.num studentId, grade := grade }
  (g, { s with grades := s.grades ++ [g] })

/-- Mutation `deleteCourse`:
`lodash.remove(courses, course => args.id == course.id)` and then
`removeCourse[0]` (absent when nothing was removed). -/
def deleteCourse (toNumber : String → Option Int) (id : Int) (s : Store) :
    Option Course × Store :=
  let removeCourse := lodash_remove (fun course => looseEqNum toNumber id course.id) s.courses
  (removeCourse.1.head?, { s with courses := removeCourse.2 })

/-- Mutation `deleteStudent`:
`lodash.remove(students, student => args.id == student.id)` and then
`removeStudent[0]`. -/
def deleteStudent (toNumber : String → Option Int) (id : Int) (s : Store) :
    Option Student × Store :=
  let removeStudent := lodash_remove (fun student => looseEqNum toNumber id student.id) s.students
  (removeStudent.1.head?, { s with students := removeStudent.2 })

/-- Mutation `deleteGrade`:
`lodash.remove(grades, grade => args.id == grade.id)` and then
`removeGrade[0]`. -/
def deleteGrade (toNumber : String → Option Int) (id : Int) (s : Store) :
    Option Grade × Store :=
  let removeGrade := lodash_remove (fun grade => looseEqNum toNumber id grade.id) s.grades
  (removeGrade.1.head?, { s with grades := removeGrade.2 })

end RootMutationType

/-! ## Specification vocabulary and example stores -/

/-- The value is a Number (an integer id). -/
def JSVal.isNum : JSVal → Bool
  | JSVal.num _ => true
  | _ => false

/-- The option `r` is the first element of `l`, in list order, that satisfies
`P`: some element preceded only by elements failing `P`, or nothing when no
element of `l` satisfies `P`. -/
def IsFirstWith {α : Type} (P : α → Prop) (l : List α) : Option α → Prop
  | none => ∀ x ∈ l, ¬ P x
  | some r => ∃ pre post, l = pre ++ r :: post ∧ P r ∧ ∀ x ∈ pre, ¬ P x

/-- Seed course `Math` with id 1. -/
def mathCourse : Course := { id := JSVal.num 1, name := "Math", description := "Numbers" }

/-- Seed course with id 2. -/
def artCourse : Course := { id := JSVal.num 2, name := "Art", description := "Drawing" }

/-- Seed course with id 3. -/
def musicCourse : Course := { id := JSVal.num 3, name := "Music", description := "Sound" }

/-- A store with three courses (ids 1, 2, 3), two students and two grades. -/
def seedStore : Store :=
  { courses := [mathCourse, artCourse, musicCourse]
    students := [{ id := JSVal.num 1, name := "Eva", lastName := "Paz", courseId := JSVal.num 1 },
                 { id := JSVal.num 2, name := "Luis", lastName := "Gil", courseId := JSVal.num 3 }]
    grades := [{ id := JSVal.num 1, courseId := JSVal.num 1, studentId := JSVal.num 1, grade := 8 },
               { id := JSVal.num 2, courseId := JSVal.num 3, studentId := JSVal.num 2, grade := 6 }] }

/-- A store whose only course is `Math` with id 1. -/
def mathStore : Store := { courses := [mathCourse], students := [], grades := [] }

/-- A store whose only course carries the string `"5"` as its id. -/
def stringIdStore : Store :=
  { courses := [{ id := JSVal.str "5", name := "Chem", description := "Matter" }]
    students := [], grades := [] }

open RootMutationType

/-! ## Runs of mutations -/

/-- A mutation request: one of the six fields of `RootMutationType` together
with its arguments. -/
inductive Mutation where
  | addCourse (name description : String) : Mutation
  | addStudent (name lastName : String) (courseId : Int) : Mutation
  | addGrade (courseId studentId : Int) (grade : Rat) : Mutation
  | deleteCourse (id : Int) : Mutation
  | deleteStudent (id : Int) : Mutation
  | deleteGrade (id : Int) : Mutation

/-- The request is one of the three add operations. -/
def Mutation.isAdd : Mutation → Bool
  | Mutation.addCourse _ _ => true
  | Mutation.addStudent _ _ _ => true
  | Mutation.addGrade _ _ _ => true
  | _ => false

/-- The store after the resolver of a mutation request has run. -/
def applyMutation (toNumber : String → Option Int) : Mutation → Store → Store
  | Mutation.addCourse name description, s => (addCourse name description s).2
  | Mutation.addStudent name lastName courseId, s => (addStudent name lastName courseId s).2
  | Mutation.addGrade courseId studentId grade, s => (addGrade courseId studentId grade s).2
  | Mutation.deleteCourse id, s => (deleteCourse toNumber id s).2
  | Mutation.deleteStudent id, s => (deleteStudent toNumber id s).2
  | Mutation.deleteGrade id, s => (deleteGrade toNumber id s).2

/-- The store after a sequence of mutation requests, executed one after the
other, each to completion. -/
def run (toNumber : String → Option Int) : List Mutation → Store → Store
  | [], s => s
  | m :: ms, s => run toNumber ms (applyMutation toNumber m s)

/-- Insertion log, one step: the record an add operation creates on the store
`s` is put at the end of the log of its entity; a delete leaves the log as it
is, so the log keeps every record ever inserted, in order of insertion. -/
def recordInsertion : Mutation → Store → Store → Store
  | Mutation.addCourse name description, s, log =>
    { log with courses := log.courses ++ [(addCourse name description s).1] }
  | Mutation.addStudent name lastName courseId, s, log =>
    { log with students := log.students ++ [(addStudent name lastName courseId s).1] }
  | Mutation.addGrade courseId studentId grade, s, log =>
    { log with grades := log.grades ++ [(addGrade courseId studentId grade s).1] }
  | _, _, log => log

/-- A run that also keeps the insertion log: the first component is the store,
the second the log. -/
def runLogged (toNumber : String → Option Int) : List Mutation → Store → Store → Store × Store
  | [], s, log => (s, log)
  | m :: ms, s, log =>
    runLogged toNumber ms (applyMutation toNumber m s) (recordInsertion m s log)

/-- The integers `1, 2, ..., n`. -/
def seqInts (n : Nat) : List Int :=
  (List.range n).map (fun (i : Nat) => (i : Int) + 1)

/-- The ids `1, 2, ..., n` as values. -/
def sequentialIds (n : Nat) : List JSVal :=
  (seqInts n).map JSVal.num

/-- The store with three empty sequences. -/
def emptyStore : Store := { courses := [], students := [], grades := [] }

/-- Nine add requests: three courses, three students, three grades. -/
def enrolment : List Mutation :=
  [Mutation.addCourse "Math" "Numbers", Mutation.addCourse "Art" "Drawing",
   Mutation.addCourse "Music" "Sound",
   Mutation.addStudent "Eva" "Paz" 1, Mutation.addStudent "Luis" "Gil" 3,
   Mutation.addStudent "Ana" "Lee" 1,
   Mutation.addGrade 1 1 8, Mutation.addGrade 3 2 6, Mutation.addGrade 1 3 9]

/-- A store with two courses whose id is the string `"5"`. -/
def twoStringIdStore : Store :=
  { courses := [{ id := JSVal.str "5", name := "Chem", description := "Matter" },
                { id := JSVal.str "5", name := "Bio", description := "Life" }]
    students := [], grades := [] }

/-! ## Lemmas on the list operations -/

theorem lodash_remove_eq {α : Type} (p : α → Bool) (l : List α) :
    lodash_remove p l = (l.filter p, l.filter (fun x => !p x)) := by
  induction l with
  | nil => rfl
  | cons x xs ih =>
    by_cases h : p x = true
    · simp [lodash_remove, ih, h]
    · simp [lodash_remove, ih, h]

theorem head?_filter_eq_find? {α : Type} (p : α → Bool) (l : List α) :
    (l.filter p).head? = l.find? p := by
  induction l with
  | nil => rfl
  | cons x xs ih =>
    by_cases h : p x = true
    · simp [List.filter_cons, h]
    · simp [List.filter_cons, h, ih]

theorem find?_isFirstWith {α : Type} (p : α → Bool) (l : List α) :
    IsFirstWith (fun x => p x = true) l (l.find? p) := by
  cases h : l.find? p with
  | none => simpa [IsFirstWith] using h
  | some r =>
    obtain ⟨hr, pre, post, hl, hpre⟩ := List.find?_eq_some.mp h
    exact ⟨pre, post, hl, hr, fun x hx => by simpa using hpre x hx⟩

theorem isFirstWith_congr {α : Type} {P Q : α → Prop} (h : ∀ x, P x ↔ Q x) (l : List α)
    (r : Option α) (hr : IsFirstWith P l r) : IsFirstWith Q l r := by
  have e : P = Q := funext fun x => propext (h x)
  exact e ▸ hr

theorem strictEq_iff (a b : JSVal) : strictEq a b = true ↔ a = b := by
  simp [strictEq]

theorem looseEqNum_of_eq (toNumber : String → Option Int) (n : Int) (v : JSVal)
    (h : v = JSVal.num n) : looseEqNum toNumber n v = true := by
  subst h
  simp [looseEqNum]

theorem looseEqNum_of_isNum (toNumber : String → Option Int) (n : Int) (v : JSVal)
    (h : v.isNum = true) : looseEqNum toNumber n v = strictEq v (JSVal.num n) := by
  cases v with
  | num m =>
    by_cases e : n = m
    · simp [looseEqNum, strictEq, e]
    · have e2 : ¬ m = n := fun h2 => e h2.symm
      simp [looseEqNum, strictEq, e, e2]
  | undefined => simp [JSVal.isNum] at h
  | null => simp [JSVal.isNum] at h
  | bool b => simp [JSVal.isNum] at h
  | str s => simp [JSVal.isNum] at h

/-- First element matching a strict id test, stated on any list of records
with a key. -/
theorem find?_strict_isFirstWith {α : Type} (key : α → JSVal) (v : JSVal) (l : List α) :
    IsFirstWith (fun x => key x = v) l (l.find? (fun x => strictEq (key x) v)) :=
  isFirstWith_congr (fun x => strictEq_iff (key x) v) l _
    (find?_isFirstWith (fun x => strictEq (key x) v) l)

theorem find?_strict_eq_none {α : Type} (key : α → JSVal) (v : JSVal) (l : List α) :
    l.find? (fun x => strictEq (key x) v) = none ↔ ∀ x ∈ l, key x ≠ v := by
  simp [strictEq]

/-- What a delete returns and leaves, on any list of records with a key. -/
theorem remove_loose_fst {α : Type} (toNumber : String → Option Int) (key : α → JSVal)
    (id : Int) (l : List α) :
    (lodash_remove (fun x => looseEqNum toNumber id (key x)) l).1.head?
      = l.find? (fun x => looseEqNum toNumber id (key x)) := by
  rw [lodash_remove_eq]
  exact head?_filter_eq_find? _ l

theorem remove_loose_snd {α : Type} (toNumber : String → Option Int) (key : α → JSVal)
    (id : Int) (l : List α) :
    (lodash_remove (fun x => looseEqNum toNumber id (key x)) l).2
      = l.filter (fun x => !looseEqNum toNumber id (key x)) := by
  rw [lodash_remove_eq]

theorem find?_loose_eq_strict {α : Type} (toNumber : String → Option Int) (key : α → JSVal)
    (id : Int) (l : List α) (h : ∀ x ∈ l, (key x).isNum = true) :
    l.find? (fun x => looseEqNum toNumber id (key x))
      = l.find? (fun x => strictEq (key x) (JSVal.num id)) := by
  induction l with
  | nil => rfl
  | cons x xs ih =>
    have hx := looseEqNum_of_isNum toNumber id (key x) (h x (List.mem_cons_self x xs))
    have ih2 := ih (fun y hy => h y (List.mem_cons_of_mem x hy))
    simp only [List.find?_cons, hx, ih2]

theorem filter_not_eq_eraseP_iff {α : Type} (p : α → Bool) (l : List α) :
    l.filter (fun x => !p x) = l.eraseP p ↔ l.countP p ≤ 1 := by
  induction l with
  | nil => simp
  | cons x xs ih =>
    by_cases h : p x = true
    · simp only [List.filter_cons, h, Bool.not_true, List.eraseP_cons_of_pos,
        List.countP_cons_of_pos, Bool.false_eq_true, if_false]
      rw [List.filter_eq_self]
      constructor
      · intro hall
        have hz : xs.countP p = 0 := by
          rw [List.countP_eq_zero]
          intro a ha
          simpa using hall a ha
        omega
      · intro hle a ha
        have hz : xs.countP p = 0 := by omega
        rw [List.countP_eq_zero] at hz
        simpa using hz a ha
    · have h2 : p x = false := by simpa using h
      simp only [List.filter_cons, h2, Bool.not_false, if_true, List.eraseP_cons_of_neg h,
        List.countP_cons_of_neg (p := p) xs h, List.cons.injEq, true_and]
      exact ih

/-! ## The claims -/

/-- C1: each add operation (`addCourse`, `addStudent`, `addGrade`) returns a
record whose id is the length of its entity's sequence before the call plus
one and whose other fields are the supplied arguments, and the sequence after
the call is the sequence before with that returned record appended, so its
length grows by exactly one. -/
theorem add_appends_new_record (s : Store) (name description lastName : String)
    (courseId studentId : Int) (grade : Rat) :
    ((addCourse name description s).1
        = { id := JSVal.num (s.courses.length + 1), name := name, description := description }
      ∧ (addCourse name description s).2.courses
          = s.courses ++ [(addCourse name description s).1]
      ∧ (addCourse name description s).2.courses.length = s.courses.length + 1)
    ∧ ((addStudent name lastName courseId s).1
        = { id := JSVal.num (s.students.length + 1), name := name, lastName := lastName,
            courseId := JSVal.num courseId }
      ∧ (addStudent name lastName courseId s).2.students
          = s.students ++ [(addStudent name lastName courseId s).1]
      ∧ (addStudent name lastName courseId s).2.students.length = s.students.length + 1)
    ∧ ((addGrade courseId studentId grade s).1
        = { id := JSVal.num (s.grades.length + 1), courseId := JSVal.num courseId,
            studentId := JSVal.num studentId, grade := grade }
      ∧ (addGrade courseId studentId grade s).2.grades
          = s.grades ++ [(addGrade courseId studentId grade s).1]
      ∧ (addGrade courseId studentId grade s).2.grades.length = s.grades.length + 1) := by
  refine ⟨⟨rfl, rfl, ?_⟩, ⟨rfl, rfl, ?_⟩, ⟨rfl, rfl, ?_⟩⟩
  · simp [addCourse]
  · simp [addStudent]
  · simp [addGrade]

/-- C2, as stated, fails: from courses with ids 1, 2, 3, deleting id 2 and
adding a course gives ids 1, 3, 3; `deleteCourse(3)` then leaves only the
course with id 1, whereas taking out the first matching record alone would
leave the later course with id 3 in place. -/
theorem deleteCourse_takes_out_later_duplicate :
    (addCourse "Dance" "Steps" (deleteCourse decimalToNumber 2 seedStore).2).2.courses
        = [mathCourse, musicCourse, { id := JSVal.num 3, name := "Dance", description := "Steps" }]
    ∧ (deleteCourse decimalToNumber 3
        (addCourse "Dance" "Steps" (deleteCourse decimalToNumber 2 seedStore).2).2).2.courses
        = [mathCourse]
    ∧ [mathCourse, musicCourse,
        ({ id := JSVal.num 3, name := "Dance", description := "Steps" } : Course)].eraseP
          (fun c => strictEq c.id (JSVal.num 3))
        = [mathCourse, { id := JSVal.num 3, name := "Dance", description := "Steps" }]
    ∧ (deleteCourse decimalToNumber 3
        (addCourse "Dance" "Steps" (deleteCourse decimalToNumber 2 seedStore).2).2).2.courses
        ≠ (addCourse "Dance" "Steps" (deleteCourse decimalToNumber 2 seedStore).2).2.courses.eraseP
            (fun c => strictEq c.id (JSVal.num 3)) := by
  refine ⟨by decide, by decide, by decide, by decide⟩

/-- C2, amended: each delete operation takes out every record whose id equals
the argument under `==` (all of them, not only the first), the other records
staying in place in the same relative order; the result is the sequence with
only the first matching record taken out exactly when at most one record
matches. -/
theorem delete_takes_out_every_match (toNumber : String → Option Int) (s : Store) (id : Int) :
    ((deleteCourse toNumber id s).2.courses
        = s.courses.filter (fun c => !looseEqNum toNumber id c.id)
      ∧ ((deleteCourse toNumber id s).2.courses
            = s.courses.eraseP (fun c => looseEqNum toNumber id c.id)
          ↔ s.courses.countP (fun c => looseEqNum toNumber id c.id) ≤ 1))
    ∧ ((deleteStudent toNumber id s).2.students
        = s.students.filter (fun c => !looseEqNum toNumber id c.id)
      ∧ ((deleteStudent toNumber id s).2.students
            = s.students.eraseP (fun c => looseEqNum toNumber id c.id)
          ↔ s.students.countP (fun c => looseEqNum toNumber id c.id) ≤ 1))
    ∧ ((deleteGrade toNumber id s).2.grades
        = s.grades.filter (fun c => !looseEqNum toNumber id c.id)
      ∧ ((deleteGrade toNumber id s).2.grades
            = s.grades.eraseP (fun c => looseEqNum toNumber id c.id)
          ↔ s.grades.countP (fun c => looseEqNum toNumber id c.id) ≤ 1)) := by
  have hc := remove_loose_snd toNumber Course.id id s.courses
  have hs := remove_loose_snd toNumber Student.id id s.students
  have hg := remove_loose_snd toNumber Grade.id id s.grades
  refine ⟨⟨hc, ?_⟩, ⟨hs, ?_⟩, ⟨hg, ?_⟩⟩
  · show (lodash_remove _ s.courses).2 = _ ↔ _
    rw [hc]
    exact filter_not_eq_eraseP_iff _ _
  · show (lodash_remove _ s.students).2 = _ ↔ _
    rw [hs]
    exact filter_not_eq_eraseP_iff _ _
  · show (lodash_remove _ s.grades).2 = _ ↔ _
    rw [hg]
    exact filter_not_eq_eraseP_iff _ _

/-- C3: on a store whose records all carry integer ids, each delete operation
returns the first record of its sequence whose id equals the argument, returns
absent if and only if no record has that id, and returns the same value as the
find-by-id query with that argument on the state before the delete. -/
theorem delete_returns_first_match_on_integer_ids (toNumber : String → Option Int)
    (s : Store) (id : Int)
    (hc : ∀ c ∈ s.courses, c.id.isNum = true)
    (hs : ∀ c ∈ s.students, c.id.isNum = true)
    (hg : ∀ c ∈ s.grades, c.id.isNum = true) :
    (IsFirstWith (fun c => c.id = JSVal.num id) s.courses (deleteCourse toNumber id s).1
      ∧ ((deleteCourse toNumber id s).1 = none ↔ ∀ c ∈ s.courses, c.id ≠ JSVal.num id)
      ∧ (deleteCourse toNumber id s).1 = RootQueryType.course (JSVal.num id) s)
    ∧ (IsFirstWith (fun c => c.id = JSVal.num id) s.students (deleteStudent toNumber id s).1
      ∧ ((deleteStudent toNumber id s).1 = none ↔ ∀ c ∈ s.students, c.id ≠ JSVal.num id)
      ∧ (deleteStudent toNumber id s).1 = RootQueryType.student (JSVal.num id) s)
    ∧ (IsFirstWith (fun c => c.id = JSVal.num id) s.grades (deleteGrade toNumber id s).1
      ∧ ((deleteGrade toNumber id s).1 = none ↔ ∀ c ∈ s.grades, c.id ≠ JSVal.num id)
      ∧ (deleteGrade toNumber id s).1 = RootQueryType.grade (JSVal.num id) s) := by
  have ec : (deleteCourse toNumber id s).1
      = s.courses.find? (fun c => strictEq c.id (JSVal.num id)) :=
    (remove_loose_fst toNumber Course.id id s.courses).trans
      (find?_loose_eq_strict toNumber Course.id id s.courses hc)
  have es : (deleteStudent toNumber id s).1
      = s.students.find? (fun c => strictEq c.id (JSVal.num id)) :=
    (remove_loose_fst toNumber Student.id id s.students).trans
      (find?_loose_eq_strict toNumber Student.id id s.students hs)
  have eg : (deleteGrade toNumber id s).1
      = s.grades.find? (fun c => strictEq c.id (JSVal.num id)) :=
    (remove_loose_fst toNumber Grade.id id s.grades).trans
      (find?_loose_eq_strict toNumber Grade.id id s.grades hg)
  refine ⟨⟨?_, ?_, ec⟩, ⟨?_, ?_, es⟩, ⟨?_, ?_, eg⟩⟩
  · rw [ec]; exact find?_strict_isFirstWith Course.id _ _
  · rw [ec]; exact find?_strict_eq_none Course.id _ _
  · rw [es]; exact find?_strict_isFirstWith Student.id _ _
  · rw [es]; exact find?_strict_eq_none Student.id _ _
  · rw [eg]; exact find?_strict_isFirstWith Grade.id _ _
  · rw [eg]; exact find?_strict_eq_none Grade.id _ _

/-- C3 at the seed store, whose ids are all integers: `deleteCourse(3)` gives
what `course(3)` gives, the course with id 3. -/
theorem delete_returns_first_match_on_integer_ids_witness :
    (∀ c ∈ seedStore.courses, c.id.isNum = true)
    ∧ (∀ c ∈ seedStore.students, c.id.isNum = true)
    ∧ (∀ c ∈ seedStore.grades, c.id.isNum = true)
    ∧ (deleteCourse decimalToNumber 3 seedStore).1 = RootQueryType.course (JSVal.num 3) seedStore
    ∧ RootQueryType.course (JSVal.num 3) seedStore = some musicCourse :=
  ⟨by decide, by decide, by decide,
    (delete_returns_first_match_on_integer_ids decimalToNumber seedStore 3
      (by decide) (by decide) (by decide)).1.2.2,
    by decide⟩

/-- C4: each find-by-id query (`course`, `student`, `grade`) called with an
integer id returns the first record in store order whose id equals the
argument, and returns absent exactly when no record of the sequence has that
id. -/
theorem find_by_id_returns_first_match (s : Store) (id : Int) :
    (IsFirstWith (fun c => c.id = JSVal.num id) s.courses
        (RootQueryType.course (JSVal.num id) s)
      ∧ (RootQueryType.course (JSVal.num id) s = none
          ↔ ∀ c ∈ s.courses, c.id ≠ JSVal.num id))
    ∧ (IsFirstWith (fun c => c.id = JSVal.num id) s.students
        (RootQueryType.student (JSVal.num id) s)
      ∧ (RootQueryType.student (JSVal.num id) s = none
          ↔ ∀ c ∈ s.students, c.id ≠ JSVal.num id))
    ∧ (IsFirstWith (fun c => c.id = JSVal.num id) s.grades
        (RootQueryType.grade (JSVal.num id) s)
      ∧ (RootQueryType.grade (JSVal.num id) s = none
          ↔ ∀ c ∈ s.grades, c.id ≠ JSVal.num id)) :=
  ⟨⟨find?_strict_isFirstWith Course.id _ _, find?_strict_eq_none Course.id _ _⟩,
   ⟨find?_strict_isFirstWith Student.id _ _, find?_strict_eq_none Student.id _ _⟩,
   ⟨find?_strict_isFirstWith Grade.id _ _, find?_strict_eq_none Grade.id _ _⟩⟩

/-- After a delete by `==`, no record strictly equal to the id is left. -/
theorem find?_strict_after_remove {α : Type} (toNumber : String → Option Int)
    (key : α → JSVal) (id : Int) (l : List α) :
    (lodash_remove (fun x => looseEqNum toNumber id (key x)) l).2.find?
      (fun x => strictEq (key x) (JSVal.num id)) = none := by
  rw [remove_loose_snd, find?_strict_eq_none]
  intro x hx hk
  have hl := looseEqNum_of_eq toNumber id (key x) hk
  have hn := (List.mem_filter.mp hx).2
  simp [hl] at hn

/-- C5: for every store state, also one holding several records with the same
id, the find-by-id query with an id issued right after the delete operation
with that id returns absent. -/
theorem find_after_delete_is_absent (toNumber : String → Option Int) (s : Store) (id : Int) :
    RootQueryType.course (JSVal.num id) (deleteCourse toNumber id s).2 = none
    ∧ RootQueryType.student (JSVal.num id) (deleteStudent toNumber id s).2 = none
    ∧ RootQueryType.grade (JSVal.num id) (deleteGrade toNumber id s).2 = none :=
  ⟨find?_strict_after_remove toNumber Course.id id s.courses,
   find?_strict_after_remove toNumber Student.id id s.students,
   find?_strict_after_remove toNumber Grade.id id s.grades⟩

/-- C6, as stated, fails: after `deleteCourse(2)` on courses with ids 1, 2, 3
the two courses left have ids 1 and 3; `addCourse("Dance", "Steps")` returns a
record with id 3, and `course(3)` on the resulting state returns the older
course with id 3, not the record just created. -/
theorem course_after_addCourse_finds_older_record :
    (addCourse "Dance" "Steps" (deleteCourse decimalToNumber 2 seedStore).2).1
        = { id := JSVal.num 3, name := "Dance", description := "Steps" }
    ∧ RootQueryType.course
        (addCourse "Dance" "Steps" (deleteCourse decimalToNumber 2 seedStore).2).1.id
        (addCourse "Dance" "Steps" (deleteCourse decimalToNumber 2 seedStore).2).2
        = some musicCourse
    ∧ RootQueryType.course
        (addCourse "Dance" "Steps" (deleteCourse decimalToNumber 2 seedStore).2).1.id
        (addCourse "Dance" "Steps" (deleteCourse decimalToNumber 2 seedStore).2).2
        ≠ some (addCourse "Dance" "Steps" (deleteCourse decimalToNumber 2 seedStore).2).1 := by
  refine ⟨by decide, by decide, by decide⟩

/-- C6, amended: on every store state in which no course already carries the
id `length + 1`, after `addCourse(name, description)` returns a record `r` the
query `course(r.id)` on the resulting state returns that record `r`. -/
theorem course_after_addCourse_finds_new_record (s : Store) (name description : String)
    (hfresh : ∀ c ∈ s.courses, c.id ≠ JSVal.num (s.courses.length + 1)) :
    RootQueryType.course (addCourse name description s).1.id (addCourse name description s).2
      = some (addCourse name description s).1 := by
  have hnone : s.courses.find?
      (fun c => strictEq c.id (JSVal.num (s.courses.length + 1))) = none :=
    (find?_strict_eq_none Course.id _ _).mpr hfresh
  show (s.courses ++ [(addCourse name description s).1]).find?
      (fun c => strictEq c.id (JSVal.num (s.courses.length + 1))) = _
  rw [List.find?_append, hnone]
  simp [addCourse, strictEq]

/-- C6 amended, at the seed store: its ids are 1, 2, 3, the new course gets id
4 and `course(4)` returns it. -/
theorem course_after_addCourse_finds_new_record_witness :
    (∀ c ∈ seedStore.courses, c.id ≠ JSVal.num (seedStore.courses.length + 1))
    ∧ RootQueryType.course (addCourse "Dance" "Steps" seedStore).1.id
        (addCourse "Dance" "Steps" seedStore).2
        = some (addCourse "Dance" "Steps" seedStore).1 :=
  ⟨by decide, course_after_addCourse_finds_new_record seedStore "Dance" "Steps" (by decide)⟩

/-- A delete whose test matches no element returns nothing and keeps the list. -/
theorem remove_loose_of_no_match {α : Type} (toNumber : String → Option Int)
    (key : α → JSVal) (id : Int) (l : List α)
    (h : ∀ x ∈ l, looseEqNum toNumber id (key x) = false) :
    (lodash_remove (fun x => looseEqNum toNumber id (key x)) l).1.head? = none
    ∧ (lodash_remove (fun x => looseEqNum toNumber id (key x)) l).2 = l := by
  constructor
  · rw [remove_loose_fst, List.find?_eq_none]
    intro x hx
    simp [h x hx]
  · rw [remove_loose_snd, List.filter_eq_self]
    intro x hx
    simp [h x hx]

/-- On integer keys, a key that no element carries is matched by no `==` test. -/
theorem no_loose_match_of_integer_keys {α : Type} (toNumber : String → Option Int)
    (key : α → JSVal) (id : Int) (l : List α)
    (hn : ∀ x ∈ l, (key x).isNum = true) (hne : ∀ x ∈ l, key x ≠ JSVal.num id) :
    ∀ x ∈ l, looseEqNum toNumber id (key x) = false := by
  intro x hx
  rw [looseEqNum_of_isNum toNumber id (key x) (hn x hx)]
  simpa [strictEq] using hne x hx

/-- C7: for each entity, every store state and every integer id that matches
no record of that entity's sequence, the delete operation returns absent and
leaves the sequence, and with it the whole store, unchanged, hence of the same
length.  This is stated twice for each entity: for an id that no record
matches under the `==` test of the delete, on any store; and, on a sequence
whose ids are integers, for an id that no record carries. -/
theorem delete_of_unmatched_id_changes_nothing (toNumber : String → Option Int)
    (s : Store) (id : Int) :
    ((∀ c ∈ s.courses, looseEqNum toNumber id c.id = false) →
        (deleteCourse toNumber id s).1 = none
        ∧ (deleteCourse toNumber id s).2 = s
        ∧ (deleteCourse toNumber id s).2.courses.length = s.courses.length)
    ∧ ((∀ c ∈ s.students, looseEqNum toNumber id c.id = false) →
        (deleteStudent toNumber id s).1 = none
        ∧ (deleteStudent toNumber id s).2 = s
        ∧ (deleteStudent toNumber id s).2.students.length = s.students.length)
    ∧ ((∀ c ∈ s.grades, looseEqNum toNumber id c.id = false) →
        (deleteGrade toNumber id s).1 = none
        ∧ (deleteGrade toNumber id s).2 = s
        ∧ (deleteGrade toNumber id s).2.grades.length = s.grades.length)
    ∧ ((∀ c ∈ s.courses, c.id.isNum = true) → (∀ c ∈ s.courses, c.id ≠ JSVal.num id) →
        (deleteCourse toNumber id s).1 = none
        ∧ (deleteCourse toNumber id s).2 = s
        ∧ (deleteCourse toNumber id s).2.courses.length = s.courses.length)
    ∧ ((∀ c ∈ s.students, c.id.isNum = true) → (∀ c ∈ s.students, c.id ≠ JSVal.num id) →
        (deleteStudent toNumber id s).1 = none
        ∧ (deleteStudent toNumber id s).2 = s
        ∧ (deleteStudent toNumber id s).2.students.length = s.students.length)
    ∧ ((∀ c ∈ s.grades, c.id.isNum = true) → (∀ c ∈ s.grades, c.id ≠ JSVal.num id) →
        (deleteGrade toNumber id s).1 = none
        ∧ (deleteGrade toNumber id s).2 = s
        ∧ (deleteGrade toNumber id s).2.grades.length = s.grades.length) := by
  have hc : (∀ c ∈ s.courses, looseEqNum toNumber id c.id = false) →
      (deleteCourse toNumber id s).1 = none
      ∧ (deleteCourse toNumber id s).2 = s
      ∧ (deleteCourse toNumber id s).2.courses.length = s.courses.length := by
    intro h
    obtain ⟨h1, h2⟩ := remove_loose_of_no_match toNumber Course.id id s.courses h
    have e : (deleteCourse toNumber id s).2.courses = s.courses := h2
    refine ⟨h1, ?_, by rw [e]⟩
    show ({ s with courses := _ } : Store) = s
    rw [h2]
  have hs : (∀ c ∈ s.students, looseEqNum toNumber id c.id = false) →
      (deleteStudent toNumber id s).1 = none
      ∧ (deleteStudent toNumber id s).2 = s
      ∧ (deleteStudent toNumber id s).2.students.length = s.students.length := by
    intro h
    obtain ⟨h1, h2⟩ := remove_loose_of_no_match toNumber Student.id id s.students h
    have e : (deleteStudent toNumber id s).2.students = s.students := h2
    refine ⟨h1, ?_, by rw [e]⟩
    show ({ s with students := _ } : Store) = s
    rw [h2]
  have hg : (∀ c ∈ s.grades, looseEqNum toNumber id c.id = false) →
      (deleteGrade toNumber id s).1 = none
      ∧ (deleteGrade toNumber id s).2 = s
      ∧ (deleteGrade toNumber id s).2.grades.length = s.grades.length := by
    intro h
    obtain ⟨h1, h2⟩ := remove_loose_of_no_match toNumber Grade.id id s.grades h
    have e : (deleteGrade toNumber id s).2.grades = s.grades := h2
    refine ⟨h1, ?_, by rw [e]⟩
    show ({ s with grades := _ } : Store) = s
    rw [h2]
  exact ⟨hc, hs, hg,
    fun hn hne => hc (no_loose_match_of_integer_keys toNumber Course.id id s.courses hn hne),
    fun hn hne => hs (no_loose_match_of_integer_keys toNumber Student.id id s.students hn hne),
    fun hn hne => hg (no_loose_match_of_integer_keys toNumber Grade.id id s.grades hn hne)⟩

/-- C7 at the seed store: its course ids are the integers 1, 2, 3, none of
them 7, and `deleteCourse(7)` returns absent and leaves the store as it was. -/
theorem delete_of_unmatched_id_changes_nothing_witness :
    (∀ c ∈ seedStore.courses, c.id.isNum = true)
    ∧ (∀ c ∈ seedStore.courses, c.id ≠ JSVal.num 7)
    ∧ (deleteCourse decimalToNumber 7 seedStore).1 = none
    ∧ (deleteCourse decimalToNumber 7 seedStore).2 = seedStore
    ∧ (deleteCourse decimalToNumber 7 seedStore).2.courses.length = seedStore.courses.length :=
  ⟨by decide, by decide,
    (delete_of_unmatched_id_changes_nothing decimalToNumber seedStore 7).2.2.2.1
      (by decide) (by decide)⟩

/-- C8: for every store state the relational resolvers return the first
record of the target collection whose id equals the parent's foreign key, and
absent exactly when there is none: `Student.course` looks up
`student.courseId` among the courses, `Grade.course` looks up `grade.courseId`
among the courses, and `Grade.student` looks up `grade.studentId` among the
students. -/
theorem relational_resolvers_return_first_match (s : Store) (student : Student)
    (grade : Grade) :
    (IsFirstWith (fun c => c.id = student.courseId) s.courses (StudentType.course student s)
      ∧ (StudentType.course student s = none ↔ ∀ c ∈ s.courses, c.id ≠ student.courseId))
    ∧ (IsFirstWith (fun c => c.id = grade.courseId) s.courses (GradeType.course grade s)
      ∧ (GradeType.course grade s = none ↔ ∀ c ∈ s.courses, c.id ≠ grade.courseId))
    ∧ (IsFirstWith (fun c => c.id = grade.studentId) s.students (GradeType.student grade s)
      ∧ (GradeType.student grade s = none ↔ ∀ c ∈ s.students, c.id ≠ grade.studentId)) :=
  ⟨⟨find?_strict_isFirstWith Course.id _ _, find?_strict_eq_none Course.id _ _⟩,
   ⟨find?_strict_isFirstWith Course.id _ _, find?_strict_eq_none Course.id _ _⟩,
   ⟨find?_strict_isFirstWith Student.id _ _, find?_strict_eq_none Student.id _ _⟩⟩

/-- C9: for every store state, every integer `c`, every student record and
every grade record whose `courseId` is `c`, after `deleteCourse(c)` the
resolvers `Student.course` and `Grade.course` return absent on the resulting
state, while the students and grades sequences are what they were, so the
student and grade records are still present. -/
theorem deleteCourse_leaves_dangling_references (toNumber : String → Option Int)
    (s : Store) (c : Int) (student : Student) (grade : Grade)
    (hstudent : student.courseId = JSVal.num c) (hgrade : grade.courseId = JSVal.num c) :
    StudentType.course student (deleteCourse toNumber c s).2 = none
    ∧ GradeType.course grade (deleteCourse toNumber c s).2 = none
    ∧ (deleteCourse toNumber c s).2.students = s.students
    ∧ (deleteCourse toNumber c s).2.grades = s.grades
    ∧ (student ∈ s.students → student ∈ (deleteCourse toNumber c s).2.students)
    ∧ (grade ∈ s.grades → grade ∈ (deleteCourse toNumber c s).2.grades) := by
  have h := find?_strict_after_remove toNumber Course.id c s.courses
  refine ⟨?_, ?_, rfl, rfl, fun hm => hm, fun hm => hm⟩
  · show (lodash_remove _ s.courses).2.find? (fun x => strictEq x.id student.courseId) = none
    rw [hstudent]
    exact h
  · show (lodash_remove _ s.courses).2.find? (fun x => strictEq x.id grade.courseId) = none
    rw [hgrade]
    exact h

/-- C9, the scenario of the specification: the store holds course id 1
`Math`; `addStudent("Ana", "Lee", 1)` returns a student with id 1 and
`courseId` 1 whose course resolves to `Math`; `deleteCourse(1)` returns
`Math`; the student's course then resolves to absent, and the student is
still in the store. -/
theorem deleteCourse_leaves_dangling_references_witness :
    (addStudent "Ana" "Lee" 1 mathStore).1
        = { id := JSVal.num 1, name := "Ana", lastName := "Lee", courseId := JSVal.num 1 }
    ∧ StudentType.course (addStudent "Ana" "Lee" 1 mathStore).1
        (addStudent "Ana" "Lee" 1 mathStore).2 = some mathCourse
    ∧ (deleteCourse decimalToNumber 1 (addStudent "Ana" "Lee" 1 mathStore).2).1
        = some mathCourse
    ∧ (addStudent "Ana" "Lee" 1 mathStore).1.courseId = JSVal.num 1
    ∧ StudentType.course (addStudent "Ana" "Lee" 1 mathStore).1
        (deleteCourse decimalToNumber 1 (addStudent "Ana" "Lee" 1 mathStore).2).2 = none
    ∧ (deleteCourse decimalToNumber 1 (addStudent "Ana" "Lee" 1 mathStore).2).2.students
        = [(addStudent "Ana" "Lee" 1 mathStore).1] :=
  ⟨by decide, by decide, by decide, by decide,
    (deleteCourse_leaves_dangling_references decimalToNumber
      (addStudent "Ana" "Lee" 1 mathStore).2 1 (addStudent "Ana" "Lee" 1 mathStore).1
      { id := JSVal.num 1, courseId := JSVal.num 1, studentId := JSVal.num 1, grade := 9 }
      (by decide) (by decide)).1,
    by decide⟩

/-- C10: every mutation touches only its own entity's sequence: `addCourse`
and `deleteCourse` leave students and grades unchanged, `addStudent` and
`deleteStudent` leave courses and grades unchanged, `addGrade` and
`deleteGrade` leave courses and students unchanged; in particular after
`deleteCourse(c)` every student and every grade of the state before is still
there, whatever its `courseId`. -/
theorem mutations_touch_only_their_own_sequence (toNumber : String → Option Int)
    (s : Store) (name description lastName : String) (courseId studentId id : Int)
    (grade : Rat) :
    ((addCourse name description s).2.students = s.students
      ∧ (addCourse name description s).2.grades = s.grades)
    ∧ ((deleteCourse toNumber id s).2.students = s.students
      ∧ (deleteCourse toNumber id s).2.grades = s.grades)
    ∧ ((addStudent name lastName courseId s).2.courses = s.courses
      ∧ (addStudent name lastName courseId s).2.grades = s.grades)
    ∧ ((deleteStudent toNumber id s).2.courses = s.courses
      ∧ (deleteStudent toNumber id s).2.grades = s.grades)
    ∧ ((addGrade courseId studentId grade s).2.courses = s.courses
      ∧ (addGrade courseId studentId grade s).2.students = s.students)
    ∧ ((deleteGrade toNumber id s).2.courses = s.courses
      ∧ (deleteGrade toNumber id s).2.students = s.students)
    ∧ (∀ st ∈ s.students, st ∈ (deleteCourse toNumber id s).2.students)
    ∧ (∀ g ∈ s.grades, g ∈ (deleteCourse toNumber id s).2.grades) :=
  ⟨⟨rfl, rfl⟩, ⟨rfl, rfl⟩, ⟨rfl, rfl⟩, ⟨rfl, rfl⟩, ⟨rfl, rfl⟩, ⟨rfl, rfl⟩,
    fun _ h => h, fun _ h => h⟩

/-- One mutation keeps every sequence a subsequence of its insertion log. -/
theorem step_within_log (toNumber : String → Option Int) (m : Mutation) (s log : Store)
    (h : List.Sublist s.courses log.courses ∧ List.Sublist s.students log.students
      ∧ List.Sublist s.grades log.grades) :
    List.Sublist (applyMutation toNumber m s).courses (recordInsertion m s log).courses
    ∧ List.Sublist (applyMutation toNumber m s).students (recordInsertion m s log).students
    ∧ List.Sublist (applyMutation toNumber m s).grades (recordInsertion m s log).grades := by
  obtain ⟨hc, hs, hg⟩ := h
  cases m with
  | addCourse name description =>
    exact ⟨List.Sublist.append hc (List.Sublist.refl _), hs, hg⟩
  | addStudent name lastName courseId =>
    exact ⟨hc, List.Sublist.append hs (List.Sublist.refl _), hg⟩
  | addGrade courseId studentId grade =>
    exact ⟨hc, hs, List.Sublist.append hg (List.Sublist.refl _)⟩
  | deleteCourse id =>
    refine ⟨?_, hs, hg⟩
    show List.Sublist (lodash_remove _ s.courses).2 log.courses
    rw [remove_loose_snd toNumber Course.id id s.courses]
    exact (List.filter_sublist s.courses).trans hc
  | deleteStudent id =>
    refine ⟨hc, ?_, hg⟩
    show List.Sublist (lodash_remove _ s.students).2 log.students
    rw [remove_loose_snd toNumber Student.id id s.students]
    exact (List.filter_sublist s.students).trans hs
  | deleteGrade id =>
    refine ⟨hc, hs, ?_⟩
    show List.Sublist (lodash_remove _ s.grades).2 log.grades
    rw [remove_loose_snd toNumber Grade.id id s.grades]
    exact (List.filter_sublist s.grades).trans hg

theorem runLogged_within_log (toNumber : String → Option Int) (ops : List Mutation) :
    ∀ s log : Store,
      (List.Sublist s.courses log.courses ∧ List.Sublist s.students log.students
        ∧ List.Sublist s.grades log.grades) →
      List.Sublist (runLogged toNumber ops s log).1.courses (runLogged toNumber ops s log).2.courses
      ∧ List.Sublist (runLogged toNumber ops s log).1.students
          (runLogged toNumber ops s log).2.students
      ∧ List.Sublist (runLogged toNumber ops s log).1.grades
          (runLogged toNumber ops s log).2.grades := by
  induction ops with
  | nil => intro s log h; exact h
  | cons m ms ih =>
    intro s log h
    exact ih _ _ (step_within_log toNumber m s log h)

theorem runLogged_fst (toNumber : String → Option Int) (ops : List Mutation) :
    ∀ s log : Store, (runLogged toNumber ops s log).1 = run toNumber ops s := by
  induction ops with
  | nil => intro s log; rfl
  | cons m ms ih => intro s log; exact ih _ _

/-- The log only grows at its end. -/
theorem runLogged_log_extends (toNumber : String → Option Int) (ops : List Mutation) :
    ∀ s log : Store,
      (∃ added, (runLogged toNumber ops s log).2.courses = log.courses ++ added)
      ∧ (∃ added, (runLogged toNumber ops s log).2.students = log.students ++ added)
      ∧ (∃ added, (runLogged toNumber ops s log).2.grades = log.grades ++ added) := by
  induction ops with
  | nil => intro s log; exact ⟨⟨[], by simp [runLogged]⟩, ⟨[], by simp [runLogged]⟩,
      ⟨[], by simp [runLogged]⟩⟩
  | cons m ms ih =>
    intro s log
    obtain ⟨⟨a, ha⟩, ⟨b, hb⟩, ⟨c, hc⟩⟩ := ih (applyMutation toNumber m s) (recordInsertion m s log)
    have e : runLogged toNumber (m :: ms) s log
        = runLogged toNumber ms (applyMutation toNumber m s) (recordInsertion m s log) := rfl
    rw [e, ha, hb, hc]
    cases m with
    | addCourse name description =>
      exact ⟨⟨(addCourse name description s).1 :: a, by simp [recordInsertion]⟩, ⟨b, rfl⟩,
        ⟨c, rfl⟩⟩
    | addStudent name lastName courseId =>
      exact ⟨⟨a, rfl⟩,
        ⟨(addStudent name lastName courseId s).1 :: b, by simp [recordInsertion]⟩, ⟨c, rfl⟩⟩
    | addGrade courseId studentId grade =>
      exact ⟨⟨a, rfl⟩, ⟨b, rfl⟩,
        ⟨(addGrade courseId studentId grade s).1 :: c, by simp [recordInsertion]⟩⟩
    | deleteCourse id => exact ⟨⟨a, rfl⟩, ⟨b, rfl⟩, ⟨c, rfl⟩⟩
    | deleteStudent id => exact ⟨⟨a, rfl⟩, ⟨b, rfl⟩, ⟨c, rfl⟩⟩
    | deleteGrade id => exact ⟨⟨a, rfl⟩, ⟨b, rfl⟩, ⟨c, rfl⟩⟩

/-- C11: for every store state the listing queries `courses`, `students` and
`grades` return exactly the current sequence of their entity, every record in
store order; a query resolver is a function of the store alone and writes
nothing, so the three sequences are what they were.  Along any sequence of
add and delete operations the listing is in insertion order: the insertion
log is the initial sequence followed by the records added, in order of
addition, and the listing after the run is a subsequence of it, so of two
records still present the one inserted earlier comes first. -/
theorem listings_return_sequences_in_insertion_order (toNumber : String → Option Int)
    (s : Store) (ops : List Mutation) :
    (RootQueryType.courses s = s.courses ∧ RootQueryType.students s = s.students
      ∧ RootQueryType.grades s = s.grades)
    ∧ (runLogged toNumber ops s s).1 = run toNumber ops s
    ∧ ((∃ added, (runLogged toNumber ops s s).2.courses = s.courses ++ added)
      ∧ (∃ added, (runLogged toNumber ops s s).2.students = s.students ++ added)
      ∧ (∃ added, (runLogged toNumber ops s s).2.grades = s.grades ++ added))
    ∧ (List.Sublist (RootQueryType.courses (run toNumber ops s))
          (runLogged toNumber ops s s).2.courses
      ∧ List.Sublist (RootQueryType.students (run toNumber ops s))
          (runLogged toNumber ops s s).2.students
      ∧ List.Sublist (RootQueryType.grades (run toNumber ops s))
          (runLogged toNumber ops s s).2.grades) := by
  refine ⟨⟨rfl, rfl, rfl⟩, runLogged_fst toNumber ops s s, runLogged_log_extends toNumber ops s s, ?_⟩
  have h := runLogged_within_log toNumber ops s s
    ⟨List.Sublist.refl _, List.Sublist.refl _, List.Sublist.refl _⟩
  rw [runLogged_fst] at h
  exact h

/-- Deleting id 2 from records with ids 1, 2, 3 leaves the two with ids 1, 3. -/
theorem remove_second_of_three {α : Type} (toNumber : String → Option Int) (key : α → JSVal)
    (l : List α) (h : l.map key = [JSVal.num 1, JSVal.num 2, JSVal.num 3]) :
    (lodash_remove (fun x => looseEqNum toNumber 2 (key x)) l).2.map key
        = [JSVal.num 1, JSVal.num 3]
    ∧ (lodash_remove (fun x => looseEqNum toNumber 2 (key x)) l).2.length = 2 := by
  rw [remove_loose_snd]
  match l, h with
  | [], h => simp at h
  | [_], h => simp at h
  | [_, _], h => simp at h
  | _ :: _ :: _ :: _ :: _, h => simp at h
  | [a, b, c], h =>
    simp only [List.map_cons, List.map_nil, List.cons.injEq, and_true] at h
    obtain ⟨ha, hb, hc⟩ := h
    simp [List.filter_cons, looseEqNum, ha, hb, hc]

/-- C12: id uniqueness is not preserved by the mutations.  From a sequence of
three records with ids 1, 2, 3, deleting id 2 and then adding one record
yields a sequence whose ids are 1, 3, 3: the new record gets id
`length 2 + 1 = 3`, the id of the surviving third record, so the ids are no
longer pairwise distinct.  This holds for each of the three entities. -/
theorem delete_then_add_duplicates_an_id (toNumber : String → Option Int) (s : Store)
    (name description lastName : String) (courseId studentId : Int) (grade : Rat) :
    (s.courses.map Course.id = [JSVal.num 1, JSVal.num 2, JSVal.num 3] →
        (addCourse name description (deleteCourse toNumber 2 s).2).1.id = JSVal.num 3
        ∧ (addCourse name description (deleteCourse toNumber 2 s).2).2.courses.map Course.id
            = [JSVal.num 1, JSVal.num 3, JSVal.num 3]
        ∧ ¬ ((addCourse name description (deleteCourse toNumber 2 s).2).2.courses.map
              Course.id).Nodup)
    ∧ (s.students.map Student.id = [JSVal.num 1, JSVal.num 2, JSVal.num 3] →
        (addStudent name lastName courseId (deleteStudent toNumber 2 s).2).1.id = JSVal.num 3
        ∧ (addStudent name lastName courseId (deleteStudent toNumber 2 s).2).2.students.map
              Student.id = [JSVal.num 1, JSVal.num 3, JSVal.num 3]
        ∧ ¬ ((addStudent name lastName courseId (deleteStudent toNumber 2 s).2).2.students.map
              Student.id).Nodup)
    ∧ (s.grades.map Grade.id = [JSVal.num 1, JSVal.num 2, JSVal.num 3] →
        (addGrade courseId studentId grade (deleteGrade toNumber 2 s).2).1.id = JSVal.num 3
        ∧ (addGrade courseId studentId grade (deleteGrade toNumber 2 s).2).2.grades.map
              Grade.id = [JSVal.num 1, JSVal.num 3, JSVal.num 3]
        ∧ ¬ ((addGrade courseId studentId grade (deleteGrade toNumber 2 s).2).2.grades.map
              Grade.id).Nodup) := by
  refine ⟨?_, ?_, ?_⟩
  · intro h
    obtain ⟨hm, hl⟩ := remove_second_of_three toNumber Course.id s.courses h
    have e1 : (addCourse name description (deleteCourse toNumber 2 s).2).1.id = JSVal.num 3 := by
      show JSVal.num (((lodash_remove _ s.courses).2.length : Int) + 1) = JSVal.num 3
      rw [hl]; rfl
    have e2 : (addCourse name description (deleteCourse toNumber 2 s).2).2.courses.map Course.id
        = [JSVal.num 1, JSVal.num 3, JSVal.num 3] := by
      show ((lodash_remove _ s.courses).2
        ++ [(addCourse name description (deleteCourse toNumber 2 s).2).1]).map Course.id = _
      rw [List.map_append, hm, List.map_singleton, e1]; rfl
    refine ⟨e1, e2, ?_⟩
    rw [e2]; decide
  · intro h
    obtain ⟨hm, hl⟩ := remove_second_of_three toNumber Student.id s.students h
    have e1 : (addStudent name lastName courseId (deleteStudent toNumber 2 s).2).1.id
        = JSVal.num 3 := by
      show JSVal.num (((lodash_remove _ s.students).2.length : Int) + 1) = JSVal.num 3
      rw [hl]; rfl
    have e2 : (addStudent name lastName courseId (deleteStudent toNumber 2 s).2).2.students.map
        Student.id = [JSVal.num 1, JSVal.num 3, JSVal.num 3] := by
      show ((lodash_remove _ s.students).2
        ++ [(addStudent name lastName courseId (deleteStudent toNumber 2 s).2).1]).map
          Student.id = _
      rw [List.map_append, hm, List.map_singleton, e1]; rfl
    refine ⟨e1, e2, ?_⟩
    rw [e2]; decide
  · intro h
    obtain ⟨hm, hl⟩ := remove_second_of_three toNumber Grade.id s.grades h
    have e1 : (addGrade courseId studentId grade (deleteGrade toNumber 2 s).2).1.id
        = JSVal.num 3 := by
      show JSVal.num (((lodash_remove _ s.grades).2.length : Int) + 1) = JSVal.num 3
      rw [hl]; rfl
    have e2 : (addGrade courseId studentId grade (deleteGrade toNumber 2 s).2).2.grades.map
        Grade.id = [JSVal.num 1, JSVal.num 3, JSVal.num 3] := by
      show ((lodash_remove _ s.grades).2
        ++ [(addGrade courseId studentId grade (deleteGrade toNumber 2 s).2).1]).map
          Grade.id = _
      rw [List.map_append, hm, List.map_singleton, e1]; rfl
    refine ⟨e1, e2, ?_⟩
    rw [e2]; decide

/-- C12 on a state reached from the empty store by nine add operations (ids
1, 2, 3 in each sequence): `deleteCourse(2)` followed by `addCourse` gives
course ids 1, 3, 3. -/
theorem delete_then_add_duplicates_an_id_witness :
    (run decimalToNumber enrolment emptyStore).courses.map Course.id
        = [JSVal.num 1, JSVal.num 2, JSVal.num 3]
    ∧ (addCourse "Dance" "Steps"
        (deleteCourse decimalToNumber 2 (run decimalToNumber enrolment emptyStore)).2).2.courses.map
          Course.id = [JSVal.num 1, JSVal.num 3, JSVal.num 3]
    ∧ ¬ ((addCourse "Dance" "Steps"
        (deleteCourse decimalToNumber 2 (run decimalToNumber enrolment emptyStore)).2).2.courses.map
          Course.id).Nodup :=
  ⟨by decide,
    ((delete_then_add_duplicates_an_id decimalToNumber (run decimalToNumber enrolment emptyStore)
      "Dance" "Steps" "Lee" 1 1 7).1 (by decide)).2⟩

theorem length_filter_not_add_countP {α : Type} (p : α → Bool) (l : List α) :
    (l.filter (fun x => !p x)).length + l.countP p = l.length := by
  induction l with
  | nil => rfl
  | cons x xs ih =>
    by_cases h : p x = true
    · simp only [List.filter_cons, h, Bool.not_true, Bool.false_eq_true, if_false,
        List.countP_cons_of_pos (p := p) xs h, List.length_cons]
      omega
    · have h2 : p x = false := by simpa using h
      simp only [List.filter_cons, h2, Bool.not_false, if_true,
        List.countP_cons_of_neg (p := p) xs h, List.length_cons]
      omega

/-- What `lodash.remove` with the `==` test of the deletes does to a list of
records with a key: it leaves the records that do not match, as many fewer as
there are matches, and the head of what it returns is the first match.  On
integer keys the `==` test is the plain comparison with the integer. -/
theorem remove_loose_spec {α : Type} (toNumber : String → Option Int) (key : α → JSVal)
    (id : Int) (l : List α) :
    (lodash_remove (fun x => looseEqNum toNumber id (key x)) l).2
        = l.filter (fun x => !looseEqNum toNumber id (key x))
    ∧ (lodash_remove (fun x => looseEqNum toNumber id (key x)) l).2.length
        + l.countP (fun x => looseEqNum toNumber id (key x)) = l.length
    ∧ IsFirstWith (fun x => looseEqNum toNumber id (key x) = true) l
        (lodash_remove (fun x => looseEqNum toNumber id (key x)) l).1.head?
    ∧ ((∀ x ∈ l, (key x).isNum = true) →
        (lodash_remove (fun x => looseEqNum toNumber id (key x)) l).2
            = l.filter (fun x => decide (key x ≠ JSVal.num id))
        ∧ (lodash_remove (fun x => looseEqNum toNumber id (key x)) l).2.length
            + l.countP (fun x => decide (key x = JSVal.num id)) = l.length
        ∧ IsFirstWith (fun x => key x = JSVal.num id) l
            (lodash_remove (fun x => looseEqNum toNumber id (key x)) l).1.head?) := by
  have h2 := remove_loose_snd toNumber key id l
  have h1 := remove_loose_fst toNumber key id l
  refine ⟨h2, ?_, ?_, ?_⟩
  · rw [h2]
    exact length_filter_not_add_countP _ l
  · rw [h1]
    exact find?_isFirstWith _ l
  · intro hn
    have hpt : ∀ x ∈ l, looseEqNum toNumber id (key x) = decide (key x = JSVal.num id) :=
      fun x hx => looseEqNum_of_isNum toNumber id (key x) (hn x hx)
    refine ⟨?_, ?_, ?_⟩
    · rw [h2]
      apply List.filter_congr
      intro x hx
      rw [hpt x hx]
      simp
    · rw [h2, ← length_filter_not_add_countP (fun x => looseEqNum toNumber id (key x)) l]
      congr 1
      apply List.countP_congr
      intro x hx
      rw [hpt x hx]
    · rw [h1, find?_loose_eq_strict toNumber key id l hn]
      exact find?_strict_isFirstWith key _ l

/-- C13: each delete operation removes every record whose id the test
`args.id == record.id` finds equal to the argument, not only the first: the
sequence after the call is the sequence before filtered to the records that
do not match, in the same relative order, so when `k` records match the
length drops by `k`, while what is returned is the first of them.  On a
sequence whose ids are integers the records that match are exactly those
whose id is the argument, and the three statements hold with plain equality
of ids. -/
theorem delete_filters_out_every_match (toNumber : String → Option Int) (s : Store)
    (id : Int) :
    ((deleteCourse toNumber id s).2.courses
        = s.courses.filter (fun c => !looseEqNum toNumber id c.id)
      ∧ (deleteCourse toNumber id s).2.courses.length
          + s.courses.countP (fun c => looseEqNum toNumber id c.id) = s.courses.length
      ∧ IsFirstWith (fun c => looseEqNum toNumber id c.id = true) s.courses
          (deleteCourse toNumber id s).1
      ∧ ((∀ c ∈ s.courses, c.id.isNum = true) →
          (deleteCourse toNumber id s).2.courses
              = s.courses.filter (fun c => decide (c.id ≠ JSVal.num id))
          ∧ (deleteCourse toNumber id s).2.courses.length
              + s.courses.countP (fun c => decide (c.id = JSVal.num id)) = s.courses.length
          ∧ IsFirstWith (fun c => c.id = JSVal.num id) s.courses
              (deleteCourse toNumber id s).1))
    ∧ ((deleteStudent toNumber id s).2.students
        = s.students.filter (fun c => !looseEqNum toNumber id c.id)
      ∧ (deleteStudent toNumber id s).2.students.length
          + s.students.countP (fun c => looseEqNum toNumber id c.id) = s.students.length
      ∧ IsFirstWith (fun c => looseEqNum toNumber id c.id = true) s.students
          (deleteStudent toNumber id s).1
      ∧ ((∀ c ∈ s.students, c.id.isNum = true) →
          (deleteStudent toNumber id s).2.students
              = s.students.filter (fun c => decide (c.id ≠ JSVal.num id))
          ∧ (deleteStudent toNumber id s).2.students.length
              + s.students.countP (fun c => decide (c.id = JSVal.num id)) = s.students.length
          ∧ IsFirstWith (fun c => c.id = JSVal.num id) s.students
              (deleteStudent toNumber id s).1))
    ∧ ((deleteGrade toNumber id s).2.grades
        = s.grades.filter (fun c => !looseEqNum toNumber id c.id)
      ∧ (deleteGrade toNumber id s).2.grades.length
          + s.grades.countP (fun c => looseEqNum toNumber id c.id) = s.grades.length
      ∧ IsFirstWith (fun c => looseEqNum toNumber id c.id = true) s.grades
          (deleteGrade toNumber id s).1
      ∧ ((∀ c ∈ s.grades, c.id.isNum = true) →
          (deleteGrade toNumber id s).2.grades
              = s.grades.filter (fun c => decide (c.id ≠ JSVal.num id))
          ∧ (deleteGrade toNumber id s).2.grades.length
              + s.grades.countP (fun c => decide (c.id = JSVal.num id)) = s.grades.length
          ∧ IsFirstWith (fun c => c.id = JSVal.num id) s.grades
              (deleteGrade toNumber id s).1)) :=
  ⟨remove_loose_spec toNumber Course.id id s.courses,
   remove_loose_spec toNumber Student.id id s.students,
   remove_loose_spec toNumber Grade.id id s.grades⟩

/-- C13 on the store with course ids 1, 3, 3 reached by deleting id 2 and
adding a course: all ids are integers, `deleteCourse(3)` leaves the records
whose id is not 3, and the length drops by the two that carry 3. -/
theorem delete_filters_out_every_match_witness :
    (∀ c ∈ (addCourse "Dance" "Steps" (deleteCourse decimalToNumber 2 seedStore).2).2.courses,
        c.id.isNum = true)
    ∧ (addCourse "Dance" "Steps" (deleteCourse decimalToNumber 2 seedStore).2).2.courses.countP
        (fun c => decide (c.id = JSVal.num 3)) = 2
    ∧ (deleteCourse decimalToNumber 3
        (addCourse "Dance" "Steps" (deleteCourse decimalToNumber 2 seedStore).2).2).2.courses
        = (addCourse "Dance" "Steps" (deleteCourse decimalToNumber 2 seedStore).2).2.courses.filter
            (fun c => decide (c.id ≠ JSVal.num 3)) :=
  ⟨by decide, by decide,
    ((delete_filters_out_every_match decimalToNumber
      (addCourse "Dance" "Steps" (deleteCourse decimalToNumber 2 seedStore).2).2 3).1.2.2.2
        (by decide)).1⟩

theorem seqInts_succ (n : Nat) : seqInts (n + 1) = seqInts n ++ [(n : Int) + 1] := by
  simp [seqInts, List.range_succ]

theorem mem_seqInts (n : Nat) (m : Int) : m ∈ seqInts n ↔ 0 < m ∧ m ≤ n := by
  simp only [seqInts, List.mem_map, List.mem_range]
  constructor
  · rintro ⟨i, hi, rfl⟩
    omega
  · rintro ⟨h0, hn⟩
    refine ⟨(m - 1).toNat, ?_, ?_⟩ <;> omega

theorem seqInts_pairwise (n : Nat) : (seqInts n).Pairwise (fun a b => a < b) := by
  induction n with
  | zero => simp [seqInts]
  | succ k ih =>
    rw [seqInts_succ, List.pairwise_append]
    refine ⟨ih, by simp, ?_⟩
    intro a ha b hb
    have h1 := (mem_seqInts k a).mp ha
    have h2 : b = (k : Int) + 1 := by simpa using hb
    omega

theorem sequentialIds_nodup (n : Nat) : (sequentialIds n).Nodup := by
  have h : (seqInts n).Nodup := (seqInts_pairwise n).imp (fun hab => ne_of_lt hab)
  exact h.map (fun a b hab => by injection hab)

/-- Pushing a record with id `length + 1` keeps the ids sequential. -/
theorem push_keeps_sequential {α : Type} (key : α → JSVal) (l : List α) (r : α)
    (hr : key r = JSVal.num ((l.length : Int) + 1))
    (h : l.map key = sequentialIds l.length) :
    (l ++ [r]).map key = sequentialIds (l ++ [r]).length := by
  rw [List.map_append, h, List.map_singleton, hr, List.length_append, List.length_singleton]
  simp [sequentialIds, seqInts_succ]

/-- Add operations alone keep the ids of each sequence sequential. -/
theorem run_adds_sequential (toNumber : String → Option Int) (ops : List Mutation)
    (hadds : ∀ m ∈ ops, m.isAdd = true) :
    ∀ s : Store,
      (s.courses.map Course.id = sequentialIds s.courses.length →
        (run toNumber ops s).courses.map Course.id
          = sequentialIds (run toNumber ops s).courses.length)
      ∧ (s.students.map Student.id = sequentialIds s.students.length →
        (run toNumber ops s).students.map Student.id
          = sequentialIds (run toNumber ops s).students.length)
      ∧ (s.grades.map Grade.id = sequentialIds s.grades.length →
        (run toNumber ops s).grades.map Grade.id
          = sequentialIds (run toNumber ops s).grades.length) := by
  induction ops with
  | nil => intro s; exact ⟨fun h => h, fun h => h, fun h => h⟩
  | cons m ms ih =>
    intro s
    have hms : ∀ x ∈ ms, x.isAdd = true := fun x hx => hadds x (List.mem_cons_of_mem m hx)
    have hm : m.isAdd = true := hadds m (List.mem_cons_self m ms)
    obtain ⟨ic, is, ig⟩ := ih hms (applyMutation toNumber m s)
    cases m with
    | addCourse name description =>
      exact ⟨fun h => ic (push_keeps_sequential Course.id s.courses _ rfl h), is, ig⟩
    | addStudent name lastName courseId =>
      exact ⟨ic, fun h => is (push_keeps_sequential Student.id s.students _ rfl h), ig⟩
    | addGrade courseId studentId grade =>
      exact ⟨ic, is, fun h => ig (push_keeps_sequential Grade.id s.grades _ rfl h)⟩
    | deleteCourse id => simp [Mutation.isAdd] at hm
    | deleteStudent id => simp [Mutation.isAdd] at hm
    | deleteGrade id => simp [Mutation.isAdd] at hm

/-- In a sequence with sequential ids every id is a positive integer below
`length + 1`, the id the next add assigns. -/
theorem sequential_ids_below_next {α : Type} (key : α → JSVal) (l : List α)
    (h : l.map key = sequentialIds l.length) :
    ∀ x ∈ l, ∃ m : Int, key x = JSVal.num m ∧ 0 < m ∧ m < (l.length : Int) + 1 := by
  intro x hx
  have hk : key x ∈ sequentialIds l.length := by
    rw [← h]
    exact List.mem_map_of_mem key hx
  obtain ⟨m, hm, e⟩ := List.mem_map.mp hk
  have hb := (mem_seqInts l.length m).mp hm
  exact ⟨m, e.symm, hb.1, by omega⟩

/-- Sequential ids are pairwise distinct, and they are positive integers that
increase along the sequence. -/
theorem sequential_ids_facts {α : Type} (key : α → JSVal) (l : List α)
    (h : l.map key = sequentialIds l.length) :
    (l.map key).Nodup
    ∧ ∃ ns : List Int, l.map key = ns.map JSVal.num
        ∧ ns.Pairwise (fun a b => a < b) ∧ ∀ m ∈ ns, 0 < m := by
  refine ⟨?_, seqInts l.length, h, seqInts_pairwise l.length, ?_⟩
  · rw [h]
    exact sequentialIds_nodup l.length
  · intro m hm
    exact ((mem_seqInts l.length m).mp hm).1

/-- C14: for each entity, if the ids of the sequence are exactly
`1, 2, ..., n` in store order (`n` the length), then after an add operation
they are exactly `1, 2, ..., n + 1`, the new id `n + 1` being greater than
every earlier id; and after any run consisting only of add operations the ids
of the sequence are again `1, 2, ...` up to its length, hence pairwise
distinct, positive and increasing in store order. -/
theorem adds_keep_ids_sequential (toNumber : String → Option Int) (s : Store)
    (ops : List Mutation) (hadds : ∀ m ∈ ops, m.isAdd = true)
    (name description lastName : String) (courseId studentId : Int) (grade : Rat) :
    (s.courses.map Course.id = sequentialIds s.courses.length →
        (addCourse name description s).2.courses.map Course.id
            = sequentialIds (s.courses.length + 1)
        ∧ (addCourse name description s).1.id = JSVal.num ((s.courses.length : Int) + 1)
        ∧ (∀ c ∈ s.courses, ∃ m : Int, c.id = JSVal.num m ∧ 0 < m
            ∧ m < (s.courses.length : Int) + 1)
        ∧ (run toNumber ops s).courses.map Course.id
            = sequentialIds (run toNumber ops s).courses.length
        ∧ ((run toNumber ops s).courses.map Course.id).Nodup
        ∧ ∃ ns : List Int, (run toNumber ops s).courses.map Course.id = ns.map JSVal.num
            ∧ ns.Pairwise (fun a b => a < b) ∧ ∀ m ∈ ns, 0 < m)
    ∧ (s.students.map Student.id = sequentialIds s.students.length →
        (addStudent name lastName courseId s).2.students.map Student.id
            = sequentialIds (s.students.length + 1)
        ∧ (addStudent name lastName courseId s).1.id
            = JSVal.num ((s.students.length : Int) + 1)
        ∧ (∀ c ∈ s.students, ∃ m : Int, c.id = JSVal.num m ∧ 0 < m
            ∧ m < (s.students.length : Int) + 1)
        ∧ (run toNumber ops s).students.map Student.id
            = sequentialIds (run toNumber ops s).students.length
        ∧ ((run toNumber ops s).students.map Student.id).Nodup
        ∧ ∃ ns : List Int, (run toNumber ops s).students.map Student.id = ns.map JSVal.num
            ∧ ns.Pairwise (fun a b => a < b) ∧ ∀ m ∈ ns, 0 < m)
    ∧ (s.grades.map Grade.id = sequentialIds s.grades.length →
        (addGrade courseId studentId grade s).2.grades.map Grade.id
            = sequentialIds (s.grades.length + 1)
        ∧ (addGrade courseId studentId grade s).1.id = JSVal.num ((s.grades.length : Int) + 1)
        ∧ (∀ c ∈ s.grades, ∃ m : Int, c.id = JSVal.num m ∧ 0 < m
            ∧ m < (s.grades.length : Int) + 1)
        ∧ (run toNumber ops s).grades.map Grade.id
            = sequentialIds (run toNumber ops s).grades.length
        ∧ ((run toNumber ops s).grades.map Grade.id).Nodup
        ∧ ∃ ns : List Int, (run toNumber ops s).grades.map Grade.id = ns.map JSVal.num
            ∧ ns.Pairwise (fun a b => a < b) ∧ ∀ m ∈ ns, 0 < m) := by
  obtain ⟨rc, rs, rg⟩ := run_adds_sequential toNumber ops hadds s
  refine ⟨?_, ?_, ?_⟩
  · intro h
    have hp := push_keeps_sequential Course.id s.courses (addCourse name description s).1 rfl h
    rw [List.length_append, List.length_singleton] at hp
    have hf := sequential_ids_facts Course.id (run toNumber ops s).courses (rc h)
    exact ⟨hp, rfl, sequential_ids_below_next Course.id s.courses h, rc h, hf.1, hf.2⟩
  · intro h
    have hp := push_keeps_sequential Student.id s.students
      (addStudent name lastName courseId s).1 rfl h
    rw [List.length_append, List.length_singleton] at hp
    have hf := sequential_ids_facts Student.id (run toNumber ops s).students (rs h)
    exact ⟨hp, rfl, sequential_ids_below_next Student.id s.students h, rs h, hf.1, hf.2⟩
  · intro h
    have hp := push_keeps_sequential Grade.id s.grades
      (addGrade courseId studentId grade s).1 rfl h
    rw [List.length_append, List.length_singleton] at hp
    have hf := sequential_ids_facts Grade.id (run toNumber ops s).grades (rg h)
    exact ⟨hp, rfl, sequential_ids_below_next Grade.id s.grades h, rg h, hf.1, hf.2⟩

/-- C14 on the seed store (course ids 1, 2, 3) and the nine add requests of
`enrolment`: the course ids after the run are 1 to 6, pairwise distinct. -/
theorem adds_keep_ids_sequential_witness :
    (∀ m ∈ enrolment, m.isAdd = true)
    ∧ seedStore.courses.map Course.id = sequentialIds seedStore.courses.length
    ∧ (run decimalToNumber enrolment seedStore).courses.map Course.id
        = sequentialIds (run decimalToNumber enrolment seedStore).courses.length
    ∧ (run decimalToNumber enrolment seedStore).courses.length = 6
    ∧ ((run decimalToNumber enrolment seedStore).courses.map Course.id).Nodup :=
  ⟨by decide, by decide,
    ((adds_keep_ids_sequential decimalToNumber seedStore enrolment (by decide)
      "Dance" "Steps" "Lee" 1 1 7).1 (by decide)).2.2.2.1,
    by decide,
    ((adds_keep_ids_sequential decimalToNumber seedStore enrolment (by decide)
      "Dance" "Steps" "Lee" 1 1 7).1 (by decide)).2.2.2.2.1⟩

/-- Deleting the key of a record just pushed, when nothing before it matches,
takes out that record alone. -/
theorem remove_pushed {α : Type} (toNumber : String → Option Int) (key : α → JSVal)
    (k : Int) (l : List α) (r : α) (hr : key r = JSVal.num k)
    (h : ∀ x ∈ l, looseEqNum toNumber k (key x) = false) :
    lodash_remove (fun x => looseEqNum toNumber k (key x)) (l ++ [r]) = ([r], l) := by
  have hm : looseEqNum toNumber k (key r) = true := looseEqNum_of_eq toNumber k (key r) hr
  have h1 : l.filter (fun x => looseEqNum toNumber k (key x)) = [] := by
    rw [List.filter_eq_nil_iff]
    intro x hx
    simp [h x hx]
  have h2 : l.filter (fun x => !looseEqNum toNumber k (key x)) = l := by
    rw [List.filter_eq_self]
    intro x hx
    simp [h x hx]
  rw [lodash_remove_eq, List.filter_append, List.filter_append, h1, h2]
  simp [List.filter_cons, hm]

/-- C15: for each entity and every store state in which no record's id equals
`length + 1`, adding a record and then deleting the id that the add returned
gives back the added record and restores the store to exactly its state
before the add.  This is stated twice for each entity: with "equals" as the
`==` test of the delete, on any store; and, on a sequence whose ids are
integers, with plain equality of ids.  Without the precondition the round
trip fails in general: on courses with ids 1, 3 the added course gets id 3,
and `deleteCourse(3)` returns the older course with id 3 and leaves only the
course with id 1, the delete having removed the older record as well. -/
theorem add_then_delete_restores (toNumber : String → Option Int) (s : Store)
    (name description lastName : String) (courseId studentId : Int) (grade : Rat) :
    ((∀ c ∈ s.courses, looseEqNum toNumber ((s.courses.length : Int) + 1) c.id = false) →
        (addCourse name description s).1.id = JSVal.num ((s.courses.length : Int) + 1)
        ∧ (deleteCourse toNumber ((s.courses.length : Int) + 1)
            (addCourse name description s).2).1 = some (addCourse name description s).1
        ∧ (deleteCourse toNumber ((s.courses.length : Int) + 1)
            (addCourse name description s).2).2 = s)
    ∧ ((∀ c ∈ s.students, looseEqNum toNumber ((s.students.length : Int) + 1) c.id = false) →
        (addStudent name lastName courseId s).1.id = JSVal.num ((s.students.length : Int) + 1)
        ∧ (deleteStudent toNumber ((s.students.length : Int) + 1)
            (addStudent name lastName courseId s).2).1
              = some (addStudent name lastName courseId s).1
        ∧ (deleteStudent toNumber ((s.students.length : Int) + 1)
            (addStudent name lastName courseId s).2).2 = s)
    ∧ ((∀ c ∈ s.grades, looseEqNum toNumber ((s.grades.length : Int) + 1) c.id = false) →
        (addGrade courseId studentId grade s).1.id = JSVal.num ((s.grades.length : Int) + 1)
        ∧ (deleteGrade toNumber ((s.grades.length : Int) + 1)
            (addGrade courseId studentId grade s).2).1
              = some (addGrade courseId studentId grade s).1
        ∧ (deleteGrade toNumber ((s.grades.length : Int) + 1)
            (addGrade courseId studentId grade s).2).2 = s)
    ∧ ((∀ c ∈ s.courses, c.id.isNum = true) →
        (∀ c ∈ s.courses, c.id ≠ JSVal.num ((s.courses.length : Int) + 1)) →
        (addCourse name description s).1.id = JSVal.num ((s.courses.length : Int) + 1)
        ∧ (deleteCourse toNumber ((s.courses.length : Int) + 1)
            (addCourse name description s).2).1 = some (addCourse name description s).1
        ∧ (deleteCourse toNumber ((s.courses.length : Int) + 1)
            (addCourse name description s).2).2 = s)
    ∧ ((∀ c ∈ s.students, c.id.isNum = true) →
        (∀ c ∈ s.students, c.id ≠ JSVal.num ((s.students.length : Int) + 1)) →
        (addStudent name lastName courseId s).1.id = JSVal.num ((s.students.length : Int) + 1)
        ∧ (deleteStudent toNumber ((s.students.length : Int) + 1)
            (addStudent name lastName courseId s).2).1
              = some (addStudent name lastName courseId s).1
        ∧ (deleteStudent toNumber ((s.students.length : Int) + 1)
            (addStudent name lastName courseId s).2).2 = s)
    ∧ ((∀ c ∈ s.grades, c.id.isNum = true) →
        (∀ c ∈ s.grades, c.id ≠ JSVal.num ((s.grades.length : Int) + 1)) →
        (addGrade courseId studentId grade s).1.id = JSVal.num ((s.grades.length : Int) + 1)
        ∧ (deleteGrade toNumber ((s.grades.length : Int) + 1)
            (addGrade courseId studentId grade s).2).1
              = some (addGrade courseId studentId grade s).1
        ∧ (deleteGrade toNumber ((s.grades.length : Int) + 1)
            (addGrade courseId studentId grade s).2).2 = s)
    ∧ ((deleteCourse decimalToNumber 2 seedStore).2.courses = [mathCourse, musicCourse]
      ∧ (addCourse "Dance" "Steps" (deleteCourse decimalToNumber 2 seedStore).2).1.id
          = JSVal.num 3
      ∧ (deleteCourse decimalToNumber 3
          (addCourse "Dance" "Steps" (deleteCourse decimalToNumber 2 seedStore).2).2).1
          = some musicCourse
      ∧ (deleteCourse decimalToNumber 3
          (addCourse "Dance" "Steps" (deleteCourse decimalToNumber 2 seedStore).2).2).2.courses
          = [mathCourse]
      ∧ (deleteCourse decimalToNumber 3
          (addCourse "Dance" "Steps" (deleteCourse decimalToNumber 2 seedStore).2).2).2.courses
          ≠ (deleteCourse decimalToNumber 2 seedStore).2.courses) := by
  have hc : (∀ c ∈ s.courses,
        looseEqNum toNumber ((s.courses.length : Int) + 1) c.id = false) →
      (addCourse name description s).1.id = JSVal.num ((s.courses.length : Int) + 1)
      ∧ (deleteCourse toNumber ((s.courses.length : Int) + 1)
          (addCourse name description s).2).1 = some (addCourse name description s).1
      ∧ (deleteCourse toNumber ((s.courses.length : Int) + 1)
          (addCourse name description s).2).2 = s := by
    intro h
    have e := remove_pushed toNumber Course.id ((s.courses.length : Int) + 1) s.courses
      (addCourse name description s).1 rfl h
    refine ⟨rfl, ?_, ?_⟩
    · show (lodash_remove _ (s.courses ++ [(addCourse name description s).1])).1.head? = _
      rw [e]; rfl
    · show ({ (addCourse name description s).2 with
          courses := (lodash_remove _ (s.courses ++ [(addCourse name description s).1])).2 }
            : Store) = s
      rw [e]; rfl
  have hs : (∀ c ∈ s.students,
        looseEqNum toNumber ((s.students.length : Int) + 1) c.id = false) →
      (addStudent name lastName courseId s).1.id = JSVal.num ((s.students.length : Int) + 1)
      ∧ (deleteStudent toNumber ((s.students.length : Int) + 1)
          (addStudent name lastName courseId s).2).1
            = some (addStudent name lastName courseId s).1
      ∧ (deleteStudent toNumber ((s.students.length : Int) + 1)
          (addStudent name lastName courseId s).2).2 = s := by
    intro h
    have e := remove_pushed toNumber Student.id ((s.students.length : Int) + 1) s.students
      (addStudent name lastName courseId s).1 rfl h
    refine ⟨rfl, ?_, ?_⟩
    · show (lodash_remove _ (s.students ++ [(addStudent name lastName courseId s).1])).1.head?
        = _
      rw [e]; rfl
    · show ({ (addStudent name lastName courseId s).2 with
          students := (lodash_remove _
            (s.students ++ [(addStudent name lastName courseId s).1])).2 } : Store) = s
      rw [e]; rfl
  have hg : (∀ c ∈ s.grades,
        looseEqNum toNumber ((s.grades.length : Int) + 1) c.id = false) →
      (addGrade courseId studentId grade s).1.id = JSVal.num ((s.grades.length : Int) + 1)
      ∧ (deleteGrade toNumber ((s.grades.length : Int) + 1)
          (addGrade courseId studentId grade s).2).1
            = some (addGrade courseId studentId grade s).1
      ∧ (deleteGrade toNumber ((s.grades.length : Int) + 1)
          (addGrade courseId studentId grade s).2).2 = s := by
    intro h
    have e := remove_pushed toNumber Grade.id ((s.grades.length : Int) + 1) s.grades
      (addGrade courseId studentId grade s).1 rfl h
    refine ⟨rfl, ?_, ?_⟩
    · show (lodash_remove _ (s.grades ++ [(addGrade courseId studentId grade s).1])).1.head? = _
      rw [e]; rfl
    · show ({ (addGrade courseId studentId grade s).2 with
          grades := (lodash_remove _ (s.grades ++ [(addGrade courseId studentId grade s).1])).2 }
            : Store) = s
      rw [e]; rfl
  exact ⟨hc, hs, hg,
    fun hn hne => hc (no_loose_match_of_integer_keys toNumber Course.id _ s.courses hn hne),
    fun hn hne => hs (no_loose_match_of_integer_keys toNumber Student.id _ s.students hn hne),
    fun hn hne => hg (no_loose_match_of_integer_keys toNumber Grade.id _ s.grades hn hne),
    by decide, by decide, by decide, by decide, by decide⟩

/-- C15 at the seed store: its course ids are the integers 1, 2, 3, none of
them 4; the added course gets id 4, and `deleteCourse(4)` returns it and
restores the store. -/
theorem add_then_delete_restores_witness :
    (∀ c ∈ seedStore.courses, c.id.isNum = true)
    ∧ (∀ c ∈ seedStore.courses, c.id ≠ JSVal.num ((seedStore.courses.length : Int) + 1))
    ∧ (addCourse "Dance" "Steps" seedStore).1.id = JSVal.num 4
    ∧ (deleteCourse decimalToNumber 4 (addCourse "Dance" "Steps" seedStore).2).1
        = some (addCourse "Dance" "Steps" seedStore).1
    ∧ (deleteCourse decimalToNumber 4 (addCourse "Dance" "Steps" seedStore).2).2 = seedStore :=
  ⟨by decide, by decide,
    (add_then_delete_restores decimalToNumber seedStore "Dance" "Steps" "Lee" 1 1 7).2.2.2.1
      (by decide) (by decide)⟩

/-- C16: for each entity and every store state in which every record has an
id, the find-by-id query called with the id argument omitted (`args.id` is
`undefined`) returns absent, whatever the sequence holds. -/
theorem find_by_omitted_id_is_absent (s : Store) :
    ((∀ c ∈ s.courses, c.id ≠ JSVal.undefined) →
        RootQueryType.course JSVal.undefined s = none)
    ∧ ((∀ c ∈ s.students, c.id ≠ JSVal.undefined) →
        RootQueryType.student JSVal.undefined s = none)
    ∧ ((∀ c ∈ s.grades, c.id ≠ JSVal.undefined) →
        RootQueryType.grade JSVal.undefined s = none) :=
  ⟨(find?_strict_eq_none Course.id JSVal.undefined s.courses).mpr,
   (find?_strict_eq_none Student.id JSVal.undefined s.students).mpr,
   (find?_strict_eq_none Grade.id JSVal.undefined s.grades).mpr⟩

/-- C16 at the seed store: every course has an id and `course()` without an
id returns absent. -/
theorem find_by_omitted_id_is_absent_witness :
    (∀ c ∈ seedStore.courses, c.id ≠ JSVal.undefined)
    ∧ RootQueryType.course JSVal.undefined seedStore = none :=
  ⟨by decide, (find_by_omitted_id_is_absent seedStore).1 (by decide)⟩

/-- C17, as stated, fails: the store holds two courses whose id is the string
`"5"` and no course whose id is the integer 5; for the second of them, `Bio`,
`deleteCourse(5)` does not return that record but the first course that
`5 ==` matches, `Chem`. -/
theorem deleteCourse_returns_first_of_two_string_ids :
    ({ id := JSVal.str "5", name := "Bio", description := "Life" } : Course)
        ∈ twoStringIdStore.courses
    ∧ decimalToNumber "5" = some 5
    ∧ (∀ c ∈ twoStringIdStore.courses, c.id ≠ JSVal.num 5)
    ∧ (deleteCourse decimalToNumber 5 twoStringIdStore).1
        = some { id := JSVal.str "5", name := "Chem", description := "Matter" }
    ∧ (deleteCourse decimalToNumber 5 twoStringIdStore).1
        ≠ some { id := JSVal.str "5", name := "Bio", description := "Life" } := by
  refine ⟨by decide, by decide, by decide, by decide, by decide⟩

/-- C17, amended: delete compares ids with `==`, find-by-id with `===`.  In a
store holding a course `r` whose id is a numeric string of the integer `n`
and no course whose id is the integer `n`, `deleteCourse(n)` removes `r` and
returns the first course of the sequence that `n ==` matches, which is `r`
itself when no course before it matches, whereas `course(n)` on the same
store returns absent; on an integer id the two comparisons give the same
answer. -/
theorem delete_is_loose_find_is_strict (toNumber : String → Option Int) (n : Int)
    (numeral : String) (hnumeral : toNumber numeral = some n)
    (s : Store) (before after : List Course) (r : Course)
    (hs : s.courses = before ++ r :: after) (hr : r.id = JSVal.str numeral)
    (hno : ∀ c ∈ s.courses, c.id ≠ JSVal.num n) :
    r ∉ (deleteCourse toNumber n s).2.courses
    ∧ IsFirstWith (fun c => looseEqNum toNumber n c.id = true) s.courses
        (deleteCourse toNumber n s).1
    ∧ (∃ first, (deleteCourse toNumber n s).1 = some first)
    ∧ ((∀ c ∈ before, looseEqNum toNumber n c.id = false) →
        (deleteCourse toNumber n s).1 = some r)
    ∧ RootQueryType.course (JSVal.num n) s = none
    ∧ (looseEqNum toNumber n r.id = true ∧ strictEq r.id (JSVal.num n) = false)
    ∧ ∀ v : JSVal, v.isNum = true → looseEqNum toNumber n v = strictEq v (JSVal.num n) := by
  have hm : looseEqNum toNumber n r.id = true := by
    rw [hr]
    simp [looseEqNum, hnumeral]
  have hst : strictEq r.id (JSVal.num n) = false := by
    rw [hr]
    simp [strictEq]
  have hfst : (deleteCourse toNumber n s).1
      = s.courses.find? (fun x => looseEqNum toNumber n x.id) :=
    remove_loose_fst toNumber Course.id n s.courses
  have hmem : r ∈ s.courses := by
    rw [hs]
    simp
  refine ⟨?_, ?_, ?_, ?_, (find?_strict_eq_none Course.id _ _).mpr hno, ⟨hm, hst⟩,
    fun v hv => looseEqNum_of_isNum toNumber n v hv⟩
  · show r ∉ (lodash_remove _ s.courses).2
    rw [remove_loose_snd toNumber Course.id n s.courses]
    intro hin
    have hf := (List.mem_filter.mp hin).2
    simp [hm] at hf
  · rw [hfst]
    exact find?_isFirstWith _ s.courses
  · rw [hfst]
    cases hfind : s.courses.find? (fun x => looseEqNum toNumber n x.id) with
    | some first => exact ⟨first, rfl⟩
    | none =>
      have hall := List.find?_eq_none.mp hfind r hmem
      exact absurd hm hall
  · intro hbefore
    rw [hfst, hs, List.find?_append]
    have hb : before.find? (fun x => looseEqNum toNumber n x.id) = none := by
      rw [List.find?_eq_none]
      intro x hx
      simp [hbefore x hx]
    rw [hb]
    simp [List.find?_cons, hm]

/-- C17 amended, at the store whose only course has the string `"5"` as id:
`deleteCourse(5)` removes that course and, no course standing before it,
returns it, while `course(5)` returns absent. -/
theorem delete_is_loose_find_is_strict_witness :
    decimalToNumber "5" = some 5
    ∧ (∀ c ∈ stringIdStore.courses, c.id ≠ JSVal.num 5)
    ∧ ({ id := JSVal.str "5", name := "Chem", description := "Matter" } : Course)
        ∉ (deleteCourse decimalToNumber 5 stringIdStore).2.courses
    ∧ (deleteCourse decimalToNumber 5 stringIdStore).1
        = some { id := JSVal.str "5", name := "Chem", description := "Matter" }
    ∧ RootQueryType.course (JSVal.num 5) stringIdStore = none :=
  ⟨by decide, by decide,
    (delete_is_loose_find_is_strict decimalToNumber 5 "5" (by decide) stringIdStore [] []
      { id := JSVal.str "5", name := "Chem", description := "Matter" } rfl rfl
      (by decide)).1,
    (delete_is_loose_find_is_strict decimalToNumber 5 "5" (by decide) stringIdStore [] []
      { id := JSVal.str "5", name := "Chem", description := "Matter" } rfl rfl
      (by decide)).2.2.2.1 (by decide),
    (delete_is_loose_find_is_strict decimalToNumber 5 "5" (by decide) stringIdStore [] []
      { id := JSVal.str "5", name := "Chem", description := "Matter" } rfl rfl
      (by decide)).2.2.2.2.1⟩

/-- Running the same delete test again on what a delete left removes nothing. -/
theorem remove_loose_twice {α : Type} (toNumber : String → Option Int) (key : α → JSVal)
    (id : Int) (l : List α) :
    (lodash_remove (fun x => looseEqNum toNumber id (key x))
        (lodash_remove (fun x => looseEqNum toNumber id (key x)) l).2).1.head? = none
    ∧ (lodash_remove (fun x => looseEqNum toNumber id (key x))
        (lodash_remove (fun x => looseEqNum toNumber id (key x)) l).2).2
        = (lodash_remove (fun x => looseEqNum toNumber id (key x)) l).2 := by
  apply remove_loose_of_no_match
  intro x hx
  rw [remove_loose_snd] at hx
  simpa using (List.mem_filter.mp hx).2

/-- C18: delete is idempotent on the store: for each entity, every store
state and every integer id, performing the delete operation with that id
twice in a row leaves the same store as performing it once, and the second
call returns absent. -/
theorem delete_twice_is_delete_once (toNumber : String → Option Int) (s : Store) (id : Int) :
    ((deleteCourse toNumber id (deleteCourse toNumber id s).2).2 = (deleteCourse toNumber id s).2
      ∧ (deleteCourse toNumber id (deleteCourse toNumber id s).2).1 = none)
    ∧ ((deleteStudent toNumber id (deleteStudent toNumber id s).2).2
          = (deleteStudent toNumber id s).2
      ∧ (deleteStudent toNumber id (deleteStudent toNumber id s).2).1 = none)
    ∧ ((deleteGrade toNumber id (deleteGrade toNumber id s).2).2 = (deleteGrade toNumber id s).2
      ∧ (deleteGrade toNumber id (deleteGrade toNumber id s).2).1 = none) := by
  obtain ⟨c1, c2⟩ := remove_loose_twice toNumber Course.id id s.courses
  obtain ⟨s1, s2⟩ := remove_loose_twice toNumber Student.id id s.students
  obtain ⟨g1, g2⟩ := remove_loose_twice toNumber Grade.id id s.grades
  refine ⟨⟨?_, c1⟩, ⟨?_, s1⟩, ⟨?_, g1⟩⟩
  · show ({ (deleteCourse toNumber id s).2 with
        courses := (lodash_remove _ (lodash_remove _ s.courses).2).2 } : Store) = _
    rw [c2]; rfl
  · show ({ (deleteStudent toNumber id s).2 with
        students := (lodash_remove _ (lodash_remove _ s.students).2).2 } : Store) = _
    rw [s2]; rfl
  · show ({ (deleteGrade toNumber id s).2 with
        grades := (lodash_remove _ (lodash_remove _ s.grades).2).2 } : Store) = _
    rw [g2]; rfl

end GraphqlCourses
